import Mathlib

/-!
Shallow embedding of `pkg/deploy/ec2/security_group_manager.go` from the
aws-load-balancer-controller repository, together with theorems settling the
frozen claims about it.

The Go file orchestrates create/update/delete of an EC2 security group:
* `buildIPPermissionInfo` / `buildIPPermissionInfos` translate desired ingress
  rules (`ec2model.IPPermission`) into normalized permission descriptors
  (`networking.IPPermissionInfo`);
* `Create` / `Update` call the external collaborators (EC2 client, tagging
  manager, ingress reconciler, tracking provider);
* `Delete` retries the EC2 delete call under
  `wait.PollImmediateUntil(pollInterval, cond, ctx.Done())` with a
  `context.WithTimeout` deadline.

Types that the Go file consumes from other packages of the repository
(`ec2model`, `networking`, `tracking`) are not part of the supplied source;
they are modelled from the specification, carrying exactly the fields the
supplied source reads, and each such definition is marked
`Modelled from the spec:`.  External collaborators are modelled as oracle
functions supplied in an environment, and the provider calls a method issues
are collected in a trace so that frame conditions ("Update never issues a
create-call") are expressible.
-/

set_option autoImplicit false

namespace Ec2

/-! ## Data model (`ec2model` package, modelled from the spec)

The supplied source reads, for each ingress rule, the protocol, the two
ports, and three optional target lists whose entries carry a value and a
free-text description.  Field names follow the Go source's accesses
(`permission.IPRanges[0].CIDRIP`, `permission.IPv6Range[0].CIDRIPv6`,
`permission.UserIDGroupPairs[0].GroupID`, `.Description`). -/

/-- Modelled from the spec: an IPv4 CIDR target entry of an ingress rule,
holding the CIDR value and a free-text description used to derive labels. -/
structure IPRange where
  CIDRIP : String
  Description : String
  deriving Repr, DecidableEq

/-- Modelled from the spec: an IPv6 CIDR target entry of an ingress rule. -/
structure IPv6Range where
  CIDRIPv6 : String
  Description : String
  deriving Repr, DecidableEq

/-- Modelled from the spec: a peer-security-group target entry of an ingress
rule. -/
structure UserIDGroupPair where
  GroupID : String
  Description : String
  deriving Repr, DecidableEq

/-- Modelled from the spec: one desired ingress rule
(`ec2model.IPPermission`): protocol identifier, from-port, to-port, and the
three optional target collections read by `buildIPPermissionInfo`.  Go's
`int64` ports are modelled as `Int`. -/
structure IPPermission where
  IPProtocol : String
  FromPort : Int
  ToPort : Int
  IPRanges : List IPRange
  IPv6Range : List IPv6Range
  UserIDGroupPairs : List UserIDGroupPair
  deriving Repr, DecidableEq

/-! ## Normalized permissions (`networking` package, modelled from the spec) -/

/-- Modelled from the spec: the target kind + value of a normalized network
permission (CIDR | CIDRv6 | PeerGroup). -/
inductive IPPermissionTarget where
  | cidr (v : String)
  | cidrV6 (v : String)
  | groupID (v : String)
  deriving Repr, DecidableEq

/-- Modelled from the spec: labels derived from a target entry's free-text
description; the label-parsing rule is treated as a pure function of the raw
description (spec §4.1), so the labels are represented by the raw description
they are derived from. -/
structure IPPermissionLabels where
  rawDescription : String
  deriving Repr, DecidableEq

/-- Modelled from the spec: `networking.NewIPPermissionLabelsForRawDescription`,
the pure description → labels function. -/
def NewIPPermissionLabelsForRawDescription (description : String) :
    IPPermissionLabels :=
  ⟨description⟩

/-- Modelled from the spec: a normalized network permission
(`networking.IPPermissionInfo`) — protocol, port range, target kind + value,
derived labels. -/
structure IPPermissionInfo where
  protocol : String
  fromPort : Int
  toPort : Int
  target : IPPermissionTarget
  labels : IPPermissionLabels
  deriving Repr, DecidableEq

/-- Modelled from the spec: `networking.NewCIDRIPPermission`. -/
def NewCIDRIPPermission (protocol : String) (fromPort toPort : Int)
    (cidr : String) (labels : IPPermissionLabels) : IPPermissionInfo :=
  ⟨protocol, fromPort, toPort, IPPermissionTarget.cidr cidr, labels⟩

/-- Modelled from the spec: `networking.NewCIDRv6IPPermission`. -/
def NewCIDRv6IPPermission (protocol : String) (fromPort toPort : Int)
    (cidrV6 : String) (labels : IPPermissionLabels) : IPPermissionInfo :=
  ⟨protocol, fromPort, toPort, IPPermissionTarget.cidrV6 cidrV6, labels⟩

/-- Modelled from the spec: `networking.NewGroupIDIPPermission`. -/
def NewGroupIDIPPermission (protocol : String) (fromPort toPort : Int)
    (groupID : String) (labels : IPPermissionLabels) : IPPermissionInfo :=
  ⟨protocol, fromPort, toPort, IPPermissionTarget.groupID groupID, labels⟩

/-! ## Translation (source: `buildIPPermissionInfo`, `buildIPPermissionInfos`)

`buildIPPermissionInfo` in the Go source tests `len(list) == 1` and then
reads `list[0]`; a guarded length-1 test plus index-0 access is embedded as a
singleton-list match.  The three tests occur in source order: IPv4 ranges
first, then IPv6 ranges, then peer-group pairs; when none of the three lists
is a singleton the function returns `errors.New("invalid ipPermission")`. -/

/-- Embedding of `buildIPPermissionInfo` (source lines 161–176). -/
def buildIPPermissionInfo (permission : IPPermission) :
    Except String IPPermissionInfo :=
  let protocol := permission.IPProtocol
  match permission.IPRanges with
  | [r] =>
      Except.ok (NewCIDRIPPermission protocol permission.FromPort
        permission.ToPort r.CIDRIP
        (NewIPPermissionLabelsForRawDescription r.Description))
  | _ =>
  match permission.IPv6Range with
  | [r] =>
      Except.ok (NewCIDRv6IPPermission protocol permission.FromPort
        permission.ToPort r.CIDRIPv6
        (NewIPPermissionLabelsForRawDescription r.Description))
  | _ =>
  match permission.UserIDGroupPairs with
  | [r] =>
      Except.ok (NewGroupIDIPPermission protocol permission.FromPort
        permission.ToPort r.GroupID
        (NewIPPermissionLabelsForRawDescription r.Description))
  | _ => Except.error "invalid ipPermission"

/-- Embedding of `buildIPPermissionInfos` (source lines 149–159): translate
each rule in input order, failing fast on the first invalid rule. -/
def buildIPPermissionInfos : List IPPermission →
    Except String (List IPPermissionInfo)
  | [] => Except.ok []
  | permission :: rest =>
      match buildIPPermissionInfo permission with
      | Except.error e => Except.error e
      | Except.ok info =>
          match buildIPPermissionInfos rest with
          | Except.error e => Except.error e
          | Except.ok infos => Except.ok (info :: infos)

/-! ## Errors

The EC2 SDK distinguishes `awserr.Error` values (which carry a code that the
delete loop inspects) from all other Go errors. -/

/-- An error returned by a provider call: either an `awserr.Error` carrying a
code, or any other Go error carrying only a message. -/
inductive AWSCallError where
  | awsErr (code : String) (message : String)
  | otherErr (message : String)
  deriving Repr, DecidableEq

/-- The test performed by the delete loop (source line 127):
`err.(awserr.Error)` succeeds and `awsErr.Code() == "DependencyViolation"`. -/
def AWSCallError.isDependencyViolation : AWSCallError → Bool
  | AWSCallError.awsErr code _ => code == "DependencyViolation"
  | AWSCallError.otherErr _ => false

/-- An error surfaced by a manager operation: a validation error from rule
translation, a provider/collaborator error propagated verbatim, or
`wait.ErrWaitTimeout` from the delete retry loop. -/
inductive ManagerError where
  | validation (message : String)
  | provider (e : AWSCallError)
  | errWaitTimeout
  deriving Repr, DecidableEq

/-! ## SDK request/response shapes (source lines 69–79 and 117–119)

`ec2sdk.CreateSecurityGroupInput` is embedded with exactly the fields the
source populates; in particular the create request built by `Create` carries
no ingress rules — ingress is established afterwards via `ReconcileIngress`. -/

/-- An EC2 SDK tag (`ec2sdk.Tag`): key and value. -/
structure Tag where
  Key : String
  Value : String
  deriving Repr, DecidableEq

/-- `ec2sdk.TagSpecification`: a resource type plus SDK tags. -/
structure TagSpecification where
  ResourceType : String
  Tags : List Tag
  deriving Repr, DecidableEq

/-- `ec2sdk.CreateSecurityGroupInput` as populated by `Create` (source lines
69–79): VPC id, group name, description and tag specifications.  The request
carries no ingress permissions. -/
structure CreateSecurityGroupInput where
  VpcId : String
  GroupName : String
  Description : String
  TagSpecifications : List TagSpecification
  deriving Repr, DecidableEq

/-- Modelled from the spec: `convertTagsToSDKTags` (defined elsewhere in the
repository) converts the merged tag set into EC2 SDK tag structs.  Tag sets
are represented as key/value pair lists. -/
def convertTagsToSDKTags (tags : List (String × String)) : List Tag :=
  tags.map fun kv => ⟨kv.1, kv.2⟩

/-! ## Desired state and existing state -/

/-- Modelled from the spec: `ec2model.SecurityGroupSpec` — the fields the
supplied source reads: group name, description, desired tags, ingress rules. -/
structure SecurityGroupSpec where
  GroupName : String
  Description : String
  Tags : List (String × String)
  Ingress : List IPPermission
  deriving Repr, DecidableEq

/-- Modelled from the spec: `ec2model.SecurityGroup`, the desired-state
resource; only its `Spec` is read by the manager (its stack and id are used
for tag tracking and logging only). -/
structure SecurityGroup where
  Spec : SecurityGroupSpec
  deriving Repr, DecidableEq

/-- Modelled from the spec: `networking.SecurityGroupInfo` — the existing
remote group's id and current tags, supplied by the caller. -/
structure SecurityGroupInfo where
  SecurityGroupID : String
  Tags : List (String × String)
  deriving Repr, DecidableEq

/-- `ec2model.SecurityGroupStatus`: the remote resource id, the only output
of Create/Update. -/
structure SecurityGroupStatus where
  GroupID : String
  deriving Repr, DecidableEq

/-- Modelled from the spec: `tracking.Provider` — the external tag-tracking
collaborator.  `ResourceTags` merges the controller tracking tags into the
user tags for a given resource (the Go call site passes
`(resSG.Stack(), resSG, resSG.Spec.Tags)`; the stack is determined by the
resource, so the model takes the resource and the user tags);
`LegacyTagKeys` is the set of legacy keys ignored during tag reconciliation. -/
structure TrackingProvider where
  ResourceTags : SecurityGroup → List (String × String) → List (String × String)
  LegacyTagKeys : List String

/-! ## Manager configuration (source lines 18–21, 33–59)

Go `time.Duration` values are nanosecond counts; `time.Second` and
`time.Minute` are the corresponding nanosecond constants. -/

/-- Nanoseconds in Go's `time.Second`. -/
def timeSecond : Nat := 1000000000

/-- Nanoseconds in Go's `time.Minute`. -/
def timeMinute : Nat := 60 * timeSecond

/-- Source line 19: `defaultWaitSGDeletionPollInterval = 2 * time.Second`. -/
def defaultWaitSGDeletionPollInterval : Nat := 2 * timeSecond

/-- Source line 20: `defaultWaitSGDeletionTimeout = 2 * time.Minute`. -/
def defaultWaitSGDeletionTimeout : Nat := 2 * timeMinute

/-- The manager's immutable configuration (`defaultSecurityGroupManager`,
source lines 49–59).  The EC2 client, tagging manager and ingress reconciler
collaborators are supplied per call through an `Env`; the logger is dropped. -/
structure defaultSecurityGroupManager where
  trackingProvider : TrackingProvider
  vpcID : String
  waitSGDeletionPollInterval : Nat
  waitSGDeletionTimeout : Nat

/-- Embedding of `NewDefaultSecurityGroupManager` (source lines 33–46): the
constructor stores the collaborators and always installs the default poll
interval and deletion timeout. -/
def NewDefaultSecurityGroupManager (trackingProvider : TrackingProvider)
    (vpcID : String) : defaultSecurityGroupManager :=
  { trackingProvider := trackingProvider
    vpcID := vpcID
    waitSGDeletionPollInterval := defaultWaitSGDeletionPollInterval
    waitSGDeletionTimeout := defaultWaitSGDeletionTimeout }

/-! ## Collaborator environment and call traces

The collaborators are modelled as oracle functions; each manager operation
returns, besides its result, the trace of provider/collaborator calls it
issued, in order. -/

/-- One outward call issued by the manager. -/
inductive ProviderCall where
  | createSecurityGroup (req : CreateSecurityGroupInput)
  | deleteSecurityGroup (groupID : String)
  | reconcileTags (groupID : String) (desiredTags : List (String × String))
      (currentTags : List (String × String)) (ignoredTagKeys : List String)
  | reconcileIngress (groupID : String) (permissionInfos : List IPPermissionInfo)
  deriving Repr, DecidableEq

/-- The behavior of the external collaborators for one operation:
`createSecurityGroup` returns the new group id or an error (the EC2 client);
`reconcileTags` (the tagging manager) and `reconcileIngress` (the networking
security-group reconciler) return `none` on success. -/
structure Env where
  createSecurityGroup : CreateSecurityGroupInput → Except AWSCallError String
  reconcileTags : String → List (String × String) → List (String × String) →
      List String → Option AWSCallError
  reconcileIngress : String → List IPPermissionInfo → Option AWSCallError

/-- The create request built by `Create` (source lines 69–79). -/
def createSecurityGroupReq (m : defaultSecurityGroupManager)
    (resSG : SecurityGroup) : CreateSecurityGroupInput :=
  { VpcId := m.vpcID
    GroupName := resSG.Spec.GroupName
    Description := resSG.Spec.Description
    TagSpecifications :=
      [⟨"security-group",
        convertTagsToSDKTags
          (m.trackingProvider.ResourceTags resSG resSG.Spec.Tags)⟩] }

/-- Embedding of `defaultSecurityGroupManager.Create` (source lines 61–98):
translate all ingress rules (abort on error before any provider call), issue
the create call with the merged tags attached, then reconcile ingress on the
new group id; return the new id.  The first component is the trace of calls
issued. -/
def defaultSecurityGroupManager.Create (m : defaultSecurityGroupManager)
    (env : Env) (resSG : SecurityGroup) :
    List ProviderCall × Except ManagerError SecurityGroupStatus :=
  match buildIPPermissionInfos resSG.Spec.Ingress with
  | Except.error e => ([], Except.error (ManagerError.validation e))
  | Except.ok permissionInfos =>
      let req := createSecurityGroupReq m resSG
      match env.createSecurityGroup req with
      | Except.error e =>
          ([ProviderCall.createSecurityGroup req],
           Except.error (ManagerError.provider e))
      | Except.ok sgID =>
          match env.reconcileIngress sgID permissionInfos with
          | some e =>
              ([ProviderCall.createSecurityGroup req,
                ProviderCall.reconcileIngress sgID permissionInfos],
               Except.error (ManagerError.provider e))
          | none =>
              ([ProviderCall.createSecurityGroup req,
                ProviderCall.reconcileIngress sgID permissionInfos],
               Except.ok ⟨sgID⟩)

/-- Embedding of `updateSDKSecurityGroupGroupWithTags` (source lines 142–147):
reconcile tags on the existing group, passing the full desired tag set, the
group's current tags, and the legacy keys to ignore.  Returns the call issued
and the collaborator's result. -/
def defaultSecurityGroupManager.updateSDKSecurityGroupGroupWithTags
    (m : defaultSecurityGroupManager) (env : Env) (resSG : SecurityGroup)
    (sdkSG : SecurityGroupInfo) : ProviderCall × Option AWSCallError :=
  let desiredSGTags := m.trackingProvider.ResourceTags resSG resSG.Spec.Tags
  (ProviderCall.reconcileTags sdkSG.SecurityGroupID desiredSGTags sdkSG.Tags
     m.trackingProvider.LegacyTagKeys,
   env.reconcileTags sdkSG.SecurityGroupID desiredSGTags sdkSG.Tags
     m.trackingProvider.LegacyTagKeys)

/-- Embedding of `defaultSecurityGroupManager.Update` (source lines 100–114):
translate all ingress rules (abort on error before any call), reconcile tags,
reconcile ingress on the existing group id, and return the existing id.  No
create call is issued. -/
def defaultSecurityGroupManager.Update (m : defaultSecurityGroupManager)
    (env : Env) (resSG : SecurityGroup) (sdkSG : SecurityGroupInfo) :
    List ProviderCall × Except ManagerError SecurityGroupStatus :=
  match buildIPPermissionInfos resSG.Spec.Ingress with
  | Except.error e => ([], Except.error (ManagerError.validation e))
  | Except.ok permissionInfos =>
      let tagsStep := m.updateSDKSecurityGroupGroupWithTags env resSG sdkSG
      match tagsStep.2 with
      | some e => ([tagsStep.1], Except.error (ManagerError.provider e))
      | none =>
          match env.reconcileIngress sdkSG.SecurityGroupID permissionInfos with
          | some e =>
              ([tagsStep.1,
                ProviderCall.reconcileIngress sdkSG.SecurityGroupID
                  permissionInfos],
               Except.error (ManagerError.provider e))
          | none =>
              ([tagsStep.1,
                ProviderCall.reconcileIngress sdkSG.SecurityGroupID
                  permissionInfos],
               Except.ok ⟨sdkSG.SecurityGroupID⟩)

/-! ## The delete retry loop (source lines 116–140)

`Delete` wraps the per-call context in `context.WithTimeout(ctx, timeout)` and
runs `wait.PollImmediateUntil(pollInterval, cond, ctx.Done())` from
`k8s.io/apimachinery/pkg/util/wait` (a library dependency, embedded here from
its published semantics):

* the condition runs once immediately; an error from it is returned as is,
  `done = true` returns success;
* otherwise the loop waits for ticks spaced one poll interval apart, running
  the condition on each tick, and returns `wait.ErrWaitTimeout` as soon as
  the stop channel fires instead of a tick.

`ctx.Done()` fires at `min(cancelTime, deadline)` — the closed channel does
not record which of the two occurred.  The embedding is discrete: the
condition's invocations are numbered 0, 1, 2, … (invocation `k` happens at
time `k * pollInterval`, measured from loop entry), and the loop is driven by
the number of ticks that occur strictly before the done channel fires.  Races
between a tick and the done channel firing at the same instant are excluded
by counting only ticks strictly before the done time. -/

/-- The outcome of one condition invocation, as in `wait.ConditionFunc`:
`(true, nil)`, `(false, nil)` or `(false, err)`. -/
inductive PollCond (ε : Type) where
  | done
  | notDone
  | err (e : ε)
  deriving Repr, DecidableEq

/-- The result of the poll loop: success, a condition error, or
`wait.ErrWaitTimeout` (returned whenever the stop channel fires, whatever
closed it). -/
inductive PollResult (ε : Type) where
  | ok
  | err (e : ε)
  | timeout
  deriving Repr, DecidableEq

/-- The tick-driven part of the loop (`wait.WaitFor`): at each remaining tick
run invocation `n`, `n+1`, …; when no tick remains before the done channel
fires, return `wait.ErrWaitTimeout`.  Also counts the condition invocations
performed. -/
def pollUntilLoop {ε : Type} (cond : Nat → PollCond ε) :
    Nat → Nat → PollResult ε × Nat
  | _, 0 => (PollResult.timeout, 0)
  | n, ticks + 1 =>
      match cond n with
      | PollCond.done => (PollResult.ok, 1)
      | PollCond.err e => (PollResult.err e, 1)
      | PollCond.notDone =>
          let rest := pollUntilLoop cond (n + 1) ticks
          (rest.1, rest.2 + 1)

/-- Embedding of `wait.PollImmediateUntil(interval, cond, stopCh)`: run the
condition once immediately (even if the stop channel is already closed), then
fall into the tick loop with `extraTicks` ticks before the stop channel
fires.  Returns the result and the number of condition invocations. -/
def pollImmediateUntil {ε : Type} (cond : Nat → PollCond ε)
    (extraTicks : Nat) : PollResult ε × Nat :=
  match cond 0 with
  | PollCond.done => (PollResult.ok, 1)
  | PollCond.err e => (PollResult.err e, 1)
  | PollCond.notDone =>
      let rest := pollUntilLoop cond 1 extraTicks
      (rest.1, rest.2 + 1)

/-- The number of ticks at times `interval, 2*interval, …` that fall strictly
before `doneTime`; tick `k` occurs iff `k * interval < doneTime`. -/
def ticksBeforeDone (interval doneTime : Nat) : Nat :=
  (doneTime - 1) / interval

/-- The delete condition (source lines 125–132): a successful delete call is
`done`; a failure whose error is an `awserr.Error` with code
`"DependencyViolation"` is `notDone` (retry); any other failure is returned
as an error.  The EC2 client's behavior is an oracle giving the result of the
`n`-th delete call. -/
def sgDeleteCond (deleteCall : Nat → Option AWSCallError) (n : Nat) :
    PollCond AWSCallError :=
  match deleteCall n with
  | none => PollCond.done
  | some e =>
      if e.isDependencyViolation then PollCond.notDone else PollCond.err e

/-- The instant at which `ctx.Done()` fires for the delete loop's context:
the deadline `timeout` from loop entry, or the caller's cancellation instant
`cancelAt` if that comes first. -/
def ctxDoneTime (timeout : Nat) (cancelAt : Option Nat) : Nat :=
  match cancelAt with
  | none => timeout
  | some c => min c timeout

/-- Embedding of `defaultSecurityGroupManager.Delete` (source lines 116–140):
run the delete-call condition under `PollImmediateUntil` with the manager's
poll interval, stopped by a context that fires at the deletion timeout or at
the caller's cancellation, whichever is first.  Returns `none` on success or
the surfaced error, together with the number of delete calls attempted. -/
def defaultSecurityGroupManager.Delete (m : defaultSecurityGroupManager)
    (deleteCall : Nat → Option AWSCallError) (cancelAt : Option Nat) :
    Option ManagerError × Nat :=
  let extraTicks := ticksBeforeDone m.waitSGDeletionPollInterval
    (ctxDoneTime m.waitSGDeletionTimeout cancelAt)
  let r := pollImmediateUntil (sgDeleteCond deleteCall) extraTicks
  (match r.1 with
   | PollResult.ok => none
   | PollResult.err e => some (ManagerError.provider e)
   | PollResult.timeout => some ManagerError.errWaitTimeout, r.2)

/-! ## Concrete fixtures for witnesses -/

/-- A concrete tracking provider: prepends one controller tracking tag to the
user tags and reports one legacy key. -/
def witnessTrackingProvider : TrackingProvider :=
  ⟨fun _ tags => ("elbv2.k8s.aws/cluster", "my-cluster") :: tags,
   ["legacy-key"]⟩

/-- A delete-call oracle that always fails with the transient
`DependencyViolation` code. -/
def alwaysDependencyViolation : Nat → Option AWSCallError :=
  fun _ =>
    some (AWSCallError.awsErr "DependencyViolation"
      "resource has a dependent object")

/-- An environment whose collaborators all succeed; the created group gets id
`sg-123`. -/
def witnessEnv : Env :=
  ⟨fun _ => Except.ok "sg-123", fun _ _ _ _ => none, fun _ _ => none⟩

/-- The desired spec of the C7 scenario: one CIDR ingress rule
`{protocol "tcp", fromPort 443, toPort 443, cidr "0.0.0.0/0"}` whose target
entry carries description `d`. -/
def cidr443Spec (name desc d : String)
    (userTags : List (String × String)) : SecurityGroup :=
  ⟨⟨name, desc, userTags, [⟨"tcp", 443, 443, [⟨"0.0.0.0/0", d⟩], [], []⟩]⟩⟩

/-! ## Helper lemmas about the poll loop -/

/-- Justification of `ticksBeforeDone`: for a positive interval, tick `k`
(`k ≥ 1`, occurring at time `k * interval`) is counted exactly when it falls
strictly before the done instant. -/
theorem ticksBeforeDone_spec (interval doneTime k : Nat) (hI : 0 < interval)
    (hk : 0 < k) :
    k ≤ ticksBeforeDone interval doneTime ↔ k * interval < doneTime := by
  have hpos : 0 < k * interval := Nat.mul_pos hk hI
  unfold ticksBeforeDone
  rw [Nat.le_div_iff_mul_le hI]
  omega

/-- If every condition invocation reports not-done, the tick loop consumes
all its ticks and returns `wait.ErrWaitTimeout`. -/
theorem pollUntilLoop_timeout_of_notDone {ε : Type} {cond : Nat → PollCond ε}
    (h : ∀ k, cond k = PollCond.notDone) :
    ∀ (ticks n : Nat), pollUntilLoop cond n ticks = (PollResult.timeout, ticks)
  | 0, _ => rfl
  | ticks + 1, n => by
      simp [pollUntilLoop, h n,
        pollUntilLoop_timeout_of_notDone h ticks (n + 1)]

/-- If every condition invocation reports not-done, `PollImmediateUntil`
makes one immediate invocation plus one per tick and returns
`wait.ErrWaitTimeout`. -/
theorem pollImmediateUntil_timeout_of_notDone {ε : Type}
    {cond : Nat → PollCond ε} (h : ∀ k, cond k = PollCond.notDone)
    (ticks : Nat) :
    pollImmediateUntil cond ticks = (PollResult.timeout, ticks + 1) := by
  simp [pollImmediateUntil, h 0, pollUntilLoop_timeout_of_notDone h ticks 1]

/-- A delete oracle that always fails with the `DependencyViolation` code
makes every condition invocation report not-done. -/
theorem sgDeleteCond_notDone {deleteCall : Nat → Option AWSCallError}
    (h : ∀ n, ∃ e, deleteCall n = some e ∧ e.isDependencyViolation = true)
    (k : Nat) : sgDeleteCond deleteCall k = PollCond.notDone := by
  obtain ⟨e, he, hdep⟩ := h k
  simp [sgDeleteCond, he, hdep]

/-- Under a persistently `DependencyViolation`-failing delete call, `Delete`
returns `wait.ErrWaitTimeout` after exhausting every tick before the done
instant (deadline or earlier cancellation), having attempted one delete call
per tick plus the immediate one. -/
theorem Delete_persistent_eq (m : defaultSecurityGroupManager)
    (deleteCall : Nat → Option AWSCallError)
    (h : ∀ n, ∃ e, deleteCall n = some e ∧ e.isDependencyViolation = true)
    (cancelAt : Option Nat) :
    m.Delete deleteCall cancelAt =
      (some ManagerError.errWaitTimeout,
       ticksBeforeDone m.waitSGDeletionPollInterval
         (ctxDoneTime m.waitSGDeletionTimeout cancelAt) + 1) := by
  simp [defaultSecurityGroupManager.Delete,
    pollImmediateUntil_timeout_of_notDone (sgDeleteCond_notDone h)]

/-! ## Claim C1 -/

/-- Claim C1, counterexample: an ingress rule in which two target kinds are
populated (a singleton IPv4-CIDR list and a singleton IPv6-CIDR list)
translates successfully — `buildIPPermissionInfo` does not fail on it, it
returns the IPv4 permission and ignores the IPv6 entry.  This refutes the
claim that translation fails whenever more than one target kind is populated
and succeeds only when exactly one is. -/
theorem claim1_counterexample :
    buildIPPermissionInfo
        ⟨"tcp", 80, 80, [⟨"10.0.0.0/8", "v4 desc"⟩], [⟨"::/0", "v6 desc"⟩], []⟩ =
      Except.ok
        ⟨"tcp", 80, 80, IPPermissionTarget.cidr "10.0.0.0/8", ⟨"v4 desc"⟩⟩ ∧
    ([⟨"10.0.0.0/8", "v4 desc"⟩] : List IPRange) ≠ [] ∧
    ([⟨"::/0", "v6 desc"⟩] : List IPv6Range) ≠ [] :=
  ⟨rfl, by decide, by decide⟩

/-- Claim C1, amended: translating an ingress rule fails with the
`"invalid ipPermission"` validation error exactly when none of the three
target collections has length exactly 1 (in particular whenever zero target
kinds are populated), and succeeds whenever at least one collection has
length exactly 1 — even if more than one target kind is populated. -/
theorem claim1_amended (p : IPPermission) :
    (buildIPPermissionInfo p = Except.error "invalid ipPermission" ↔
      (p.IPRanges.length ≠ 1 ∧ p.IPv6Range.length ≠ 1 ∧
       p.UserIDGroupPairs.length ≠ 1)) ∧
    ((∃ info, buildIPPermissionInfo p = Except.ok info) ↔
      (p.IPRanges.length = 1 ∨ p.IPv6Range.length = 1 ∨
       p.UserIDGroupPairs.length = 1)) := by
  obtain ⟨proto, fromPort, toPort, ranges, v6, pairs⟩ := p
  rcases ranges with _ | ⟨r, _ | ⟨r2, rs⟩⟩ <;>
    rcases v6 with _ | ⟨s, _ | ⟨s2, ss⟩⟩ <;>
      rcases pairs with _ | ⟨t, _ | ⟨t2, ts⟩⟩ <;>
        simp [buildIPPermissionInfo]

/-- Claim C1, amended, witness: a rule with all three target collections
empty is rejected with the validation error. -/
theorem claim1_amended_witness :
    buildIPPermissionInfo ⟨"tcp", 80, 80, [], [], []⟩ =
      Except.error "invalid ipPermission" :=
  (claim1_amended ⟨"tcp", 80, 80, [], [], []⟩).1.mpr
    ⟨by decide, by decide, by decide⟩

/-! ## Claim C5 -/

/-- Claim C5: for an ingress rule with exactly one target kind populated and
that collection a singleton, translation succeeds and the permission carries
the rule's protocol, from-port, to-port and target value unchanged, with
labels derived from that entry's description. -/
theorem claim5_singleton_translation (p : IPPermission) :
    (∀ r, p.IPRanges = [r] → p.IPv6Range = [] → p.UserIDGroupPairs = [] →
       buildIPPermissionInfo p = Except.ok
         ⟨p.IPProtocol, p.FromPort, p.ToPort,
          IPPermissionTarget.cidr r.CIDRIP,
          NewIPPermissionLabelsForRawDescription r.Description⟩) ∧
    (∀ r, p.IPRanges = [] → p.IPv6Range = [r] → p.UserIDGroupPairs = [] →
       buildIPPermissionInfo p = Except.ok
         ⟨p.IPProtocol, p.FromPort, p.ToPort,
          IPPermissionTarget.cidrV6 r.CIDRIPv6,
          NewIPPermissionLabelsForRawDescription r.Description⟩) ∧
    (∀ r, p.IPRanges = [] → p.IPv6Range = [] → p.UserIDGroupPairs = [r] →
       buildIPPermissionInfo p = Except.ok
         ⟨p.IPProtocol, p.FromPort, p.ToPort,
          IPPermissionTarget.groupID r.GroupID,
          NewIPPermissionLabelsForRawDescription r.Description⟩) := by
  obtain ⟨proto, fromPort, toPort, ranges, v6, pairs⟩ := p
  refine ⟨?_, ?_, ?_⟩ <;> intro r h1 h2 h3 <;> subst h1 <;> subst h2 <;>
    subst h3 <;> rfl

/-- Claim C5, witness: a singleton IPv6-CIDR rule translates to the expected
permission. -/
theorem claim5_witness :
    buildIPPermissionInfo ⟨"udp", 53, 53, [], [⟨"2001:db8::/32", "dns"⟩], []⟩ =
      Except.ok
        ⟨"udp", 53, 53, IPPermissionTarget.cidrV6 "2001:db8::/32", ⟨"dns"⟩⟩ :=
  (claim5_singleton_translation
      ⟨"udp", 53, 53, [], [⟨"2001:db8::/32", "dns"⟩], []⟩).2.1
    ⟨"2001:db8::/32", "dns"⟩ rfl rfl rfl

/-! ## Claim C2 -/

/-- Claim C2, counterexample: with the default manager and a delete call that
persistently fails with `DependencyViolation`, cancelling the caller's
context 5 seconds in (while the loop sleeps, far before the 2-minute
deadline) makes `Delete` return `wait.ErrWaitTimeout` after 3 attempts —
exactly the same error value the loop returns when the deadline itself
elapses.  This refutes the claim that cancellation returns a cancellation
error distinguishable from the timeout error: `ctx.Done()` is the loop's
stop channel, and `wait.PollImmediateUntil` answers any stop with the single
`wait.ErrWaitTimeout` value. -/
theorem claim2_counterexample :
    (NewDefaultSecurityGroupManager witnessTrackingProvider "vpc-1").Delete
        alwaysDependencyViolation (some (5 * timeSecond)) =
      (some ManagerError.errWaitTimeout, 3) ∧
    ((NewDefaultSecurityGroupManager witnessTrackingProvider "vpc-1").Delete
        alwaysDependencyViolation none).1 =
      some ManagerError.errWaitTimeout :=
  ⟨rfl, rfl⟩

/-- Claim C2, amended: cancelling the caller's context while `Delete` is
retrying a persistently `DependencyViolation`-failing delete call aborts the
loop promptly — no attempts run beyond the tick preceding the cancellation
instant — but the error returned is `wait.ErrWaitTimeout`, the very same
value returned when the deletion deadline elapses; cancellation and timeout
are not distinguishable in `Delete`'s result. -/
theorem claim2_amended (m : defaultSecurityGroupManager)
    (deleteCall : Nat → Option AWSCallError) (c : Nat)
    (h : ∀ n, ∃ e, deleteCall n = some e ∧ e.isDependencyViolation = true) :
    (m.Delete deleteCall (some c)).1 = some ManagerError.errWaitTimeout ∧
    (m.Delete deleteCall (some c)).1 = (m.Delete deleteCall none).1 ∧
    (m.Delete deleteCall (some c)).2 =
      ticksBeforeDone m.waitSGDeletionPollInterval
        (min c m.waitSGDeletionTimeout) + 1 := by
  rw [Delete_persistent_eq m deleteCall h (some c),
    Delete_persistent_eq m deleteCall h none]
  exact ⟨rfl, rfl, rfl⟩

/-- Claim C2, amended, witness: concrete instance of the amended claim with
the default manager, cancellation 7 seconds in. -/
theorem claim2_amended_witness :
    ((NewDefaultSecurityGroupManager witnessTrackingProvider "vpc-1").Delete
        alwaysDependencyViolation (some (7 * timeSecond))).1 =
      some ManagerError.errWaitTimeout :=
  (claim2_amended (NewDefaultSecurityGroupManager witnessTrackingProvider
      "vpc-1") alwaysDependencyViolation (7 * timeSecond)
    (fun _ => ⟨AWSCallError.awsErr "DependencyViolation"
      "resource has a dependent object", rfl, rfl⟩)).1

/-! ## Claim C3 -/

/-- Claim C3: each delete retry step is classified exactly as the claim
states — a successful delete call ends the loop with success after that one
call; a `DependencyViolation` failure makes the loop run the next attempt
one poll tick later; any other failure ends the loop immediately with that
error propagated and no further attempts.  The first three conjuncts
classify an arbitrary step of the tick loop; the last two restate the
terminal cases at the `Delete` level for the immediate first call. -/
theorem claim3_step_classification (m : defaultSecurityGroupManager)
    (deleteCall : Nat → Option AWSCallError) (n ticks : Nat) :
    (deleteCall n = none →
       pollUntilLoop (sgDeleteCond deleteCall) n (ticks + 1) =
         (PollResult.ok, 1)) ∧
    (∀ e, deleteCall n = some e → e.isDependencyViolation = true →
       pollUntilLoop (sgDeleteCond deleteCall) n (ticks + 1) =
         ((pollUntilLoop (sgDeleteCond deleteCall) (n + 1) ticks).1,
          (pollUntilLoop (sgDeleteCond deleteCall) (n + 1) ticks).2 + 1)) ∧
    (∀ e, deleteCall n = some e → e.isDependencyViolation = false →
       pollUntilLoop (sgDeleteCond deleteCall) n (ticks + 1) =
         (PollResult.err e, 1)) ∧
    (deleteCall 0 = none → ∀ cancelAt,
       m.Delete deleteCall cancelAt = (none, 1)) ∧
    (∀ e, deleteCall 0 = some e → e.isDependencyViolation = false →
       ∀ cancelAt,
         m.Delete deleteCall cancelAt =
           (some (ManagerError.provider e), 1)) := by
  refine ⟨?_, ?_, ?_, ?_, ?_⟩
  · intro h
    simp [pollUntilLoop, sgDeleteCond, h]
  · intro e he hdep
    simp [pollUntilLoop, sgDeleteCond, he, hdep]
  · intro e he hdep
    simp [pollUntilLoop, sgDeleteCond, he, hdep]
  · intro h cancelAt
    simp [defaultSecurityGroupManager.Delete, pollImmediateUntil,
      sgDeleteCond, h]
  · intro e he hdep cancelAt
    simp [defaultSecurityGroupManager.Delete, pollImmediateUntil,
      sgDeleteCond, he, hdep]

/-- Claim C3, witness: a first delete call that succeeds ends `Delete` with
success after exactly one attempt. -/
theorem claim3_witness :
    (NewDefaultSecurityGroupManager witnessTrackingProvider "vpc-1").Delete
        (fun _ => none) none = (none, 1) :=
  (claim3_step_classification
      (NewDefaultSecurityGroupManager witnessTrackingProvider "vpc-1")
      (fun _ => none) 0 0).2.2.2.1 rfl none

/-! ## Claim C4 -/

/-- Claim C4: when every delete call fails with the transient
`DependencyViolation` error, `Delete` runs until the deadline elapses and
returns the timeout error (`wait.ErrWaitTimeout`), having attempted at least
⌊deadline / pollInterval⌋ delete calls; it does not fail on the first
transient refusal, and its last attempt still starts strictly before the
deadline. -/
theorem claim4_persistent_transient_timeout (m : defaultSecurityGroupManager)
    (deleteCall : Nat → Option AWSCallError)
    (h : ∀ n, ∃ e, deleteCall n = some e ∧ e.isDependencyViolation = true)
    (hI : 0 < m.waitSGDeletionPollInterval)
    (hT : 0 < m.waitSGDeletionTimeout) :
    (m.Delete deleteCall none).1 = some ManagerError.errWaitTimeout ∧
    m.waitSGDeletionTimeout / m.waitSGDeletionPollInterval ≤
      (m.Delete deleteCall none).2 ∧
    ((m.Delete deleteCall none).2 - 1) * m.waitSGDeletionPollInterval <
      m.waitSGDeletionTimeout := by
  rw [Delete_persistent_eq m deleteCall h none]
  set T := m.waitSGDeletionTimeout with hTdef
  set I := m.waitSGDeletionPollInterval with hIdef
  have hticks : ticksBeforeDone I (ctxDoneTime T none) = (T - 1) / I := rfl
  refine ⟨rfl, ?_, ?_⟩
  · have h1 : T ≤ T - 1 + I := by omega
    have h2 : T / I ≤ (T - 1 + I) / I := Nat.div_le_div_right h1
    have h3 : (T - 1 + I) / I = (T - 1) / I + 1 := Nat.add_div_right _ hI
    rw [hticks]
    show T / I ≤ (T - 1) / I + 1
    omega
  · have h4 : (T - 1) / I * I ≤ T - 1 := Nat.div_mul_le_self _ _
    rw [hticks]
    show ((T - 1) / I + 1 - 1) * I < T
    rw [Nat.add_sub_cancel]
    omega

/-- Claim C4, witness: with the default 2-second interval and 2-minute
deadline, the persistently-blocked delete returns the timeout error (and, by
`claim2_counterexample`-independent computation, makes 60 = ⌊120s/2s⌋
attempts). -/
theorem claim4_witness :
    ((NewDefaultSecurityGroupManager witnessTrackingProvider "vpc-1").Delete
        alwaysDependencyViolation none).1 =
      some ManagerError.errWaitTimeout :=
  (claim4_persistent_transient_timeout
      (NewDefaultSecurityGroupManager witnessTrackingProvider "vpc-1")
      alwaysDependencyViolation
      (fun _ => ⟨AWSCallError.awsErr "DependencyViolation"
        "resource has a dependent object", rfl, rfl⟩)
      (by decide) (by decide)).1

/-! ## Claim C6 -/

/-- Claim C6: rule-set translation is fail-fast and atomic — rules are
translated independently in input order (`buildIPPermissionInfos` is the
monadic map of `buildIPPermissionInfo`); if any rule is invalid the whole
translation returns an error and no permission list; and in that case
`Create` and `Update` abort with the validation error having issued no
provider call at all. -/
theorem claim6_failfast_atomic :
    (∀ perms : List IPPermission,
       buildIPPermissionInfos perms = perms.mapM buildIPPermissionInfo) ∧
    (∀ (perms : List IPPermission) (p : IPPermission) (e : String),
       p ∈ perms → buildIPPermissionInfo p = Except.error e →
       ∃ e2, buildIPPermissionInfos perms = Except.error e2) ∧
    (∀ (m : defaultSecurityGroupManager) (env : Env) (resSG : SecurityGroup)
       (e : String),
       buildIPPermissionInfos resSG.Spec.Ingress = Except.error e →
       m.Create env resSG = ([], Except.error (ManagerError.validation e))) ∧
    (∀ (m : defaultSecurityGroupManager) (env : Env) (resSG : SecurityGroup)
       (sdkSG : SecurityGroupInfo) (e : String),
       buildIPPermissionInfos resSG.Spec.Ingress = Except.error e →
       m.Update env resSG sdkSG =
         ([], Except.error (ManagerError.validation e))) := by
  refine ⟨?_, ?_, ?_, ?_⟩
  · intro perms
    induction perms with
    | nil => rfl
    | cons a as ih =>
        rw [List.mapM_cons, ← ih]
        simp only [buildIPPermissionInfos]
        cases buildIPPermissionInfo a with
        | error e => rfl
        | ok info =>
            cases buildIPPermissionInfos as with
            | error e2 => rfl
            | ok infos => rfl
  · intro perms
    induction perms with
    | nil =>
        intro p e hp _
        exact absurd hp (List.not_mem_nil p)
    | cons a as ih =>
        intro p e hp hpe
        cases ha : buildIPPermissionInfo a with
        | error e3 =>
            exact ⟨e3, by simp [buildIPPermissionInfos, ha]⟩
        | ok info =>
            rcases List.mem_cons.mp hp with hpa | hpas
            · rw [hpa] at hpe
              rw [hpe] at ha
              exact absurd ha (by simp)
            · obtain ⟨e2, he2⟩ := ih p e hpas hpe
              exact ⟨e2, by simp [buildIPPermissionInfos, ha, he2]⟩
  · intro m env resSG e h
    simp [defaultSecurityGroupManager.Create, h]
  · intro m env resSG sdkSG e h
    simp [defaultSecurityGroupManager.Update, h]

/-- Claim C6, witness: a spec whose single ingress rule has no populated
target makes `Create` return the validation error with an empty call trace. -/
theorem claim6_witness :
    (NewDefaultSecurityGroupManager witnessTrackingProvider "vpc-1").Create
        witnessEnv ⟨⟨"sg-name", "sg-desc", [], [⟨"tcp", 1, 2, [], [], []⟩]⟩⟩ =
      ([], Except.error (ManagerError.validation "invalid ipPermission")) :=
  claim6_failfast_atomic.2.2.1
    (NewDefaultSecurityGroupManager witnessTrackingProvider "vpc-1")
    witnessEnv ⟨⟨"sg-name", "sg-desc", [], [⟨"tcp", 1, 2, [], [], []⟩]⟩⟩
    "invalid ipPermission" rfl

/-! ## Claim C7 -/

/-- Claim C7: on a `Create` of a spec whose single ingress rule is
`{protocol "tcp", fromPort 443, toPort 443, cidr "0.0.0.0/0"}`, exactly one
permission is produced, with target kind CIDR, value `"0.0.0.0/0"` and port
range 443–443; the create call receives the merged tag set from the tracking
provider attached at creation time (and, by the shape of
`CreateSecurityGroupInput`, carries no ingress rules); ingress is then
established by invoking `ReconcileIngress` on the new group id; and `Create`
returns a status holding that id. -/
theorem claim7_create_scenario (m : defaultSecurityGroupManager) (env : Env)
    (name desc d : String) (userTags : List (String × String)) (sgID : String)
    (h1 : env.createSecurityGroup
        (createSecurityGroupReq m (cidr443Spec name desc d userTags)) =
      Except.ok sgID)
    (h2 : env.reconcileIngress sgID
        [NewCIDRIPPermission "tcp" 443 443 "0.0.0.0/0"
          (NewIPPermissionLabelsForRawDescription d)] = none) :
    buildIPPermissionInfos (cidr443Spec name desc d userTags).Spec.Ingress =
      Except.ok [⟨"tcp", 443, 443, IPPermissionTarget.cidr "0.0.0.0/0", ⟨d⟩⟩] ∧
    createSecurityGroupReq m (cidr443Spec name desc d userTags) =
      ⟨m.vpcID, name, desc,
       [⟨"security-group",
         convertTagsToSDKTags (m.trackingProvider.ResourceTags
           (cidr443Spec name desc d userTags) userTags)⟩]⟩ ∧
    m.Create env (cidr443Spec name desc d userTags) =
      ([ProviderCall.createSecurityGroup
          (createSecurityGroupReq m (cidr443Spec name desc d userTags)),
        ProviderCall.reconcileIngress sgID
          [NewCIDRIPPermission "tcp" 443 443 "0.0.0.0/0"
            (NewIPPermissionLabelsForRawDescription d)]],
       Except.ok ⟨sgID⟩) := by
  refine ⟨rfl, rfl, ?_⟩
  have hb : buildIPPermissionInfos (cidr443Spec name desc d userTags).Spec.Ingress =
      Except.ok [NewCIDRIPPermission "tcp" 443 443 "0.0.0.0/0"
        (NewIPPermissionLabelsForRawDescription d)] := rfl
  simp only [defaultSecurityGroupManager.Create, hb, h1, h2]

/-- Claim C7, witness: the scenario run against the all-succeeding
environment and the concrete tracking provider. -/
theorem claim7_witness :
    (NewDefaultSecurityGroupManager witnessTrackingProvider "vpc-1").Create
        witnessEnv (cidr443Spec "sg-name" "sg-desc" "https from anywhere"
          [("team", "platform")]) =
      ([ProviderCall.createSecurityGroup
          (createSecurityGroupReq
            (NewDefaultSecurityGroupManager witnessTrackingProvider "vpc-1")
            (cidr443Spec "sg-name" "sg-desc" "https from anywhere"
              [("team", "platform")])),
        ProviderCall.reconcileIngress "sg-123"
          [NewCIDRIPPermission "tcp" 443 443 "0.0.0.0/0"
            (NewIPPermissionLabelsForRawDescription "https from anywhere")]],
       Except.ok ⟨"sg-123"⟩) :=
  (claim7_create_scenario
      (NewDefaultSecurityGroupManager witnessTrackingProvider "vpc-1")
      witnessEnv "sg-name" "sg-desc" "https from anywhere"
      [("team", "platform")] "sg-123" rfl rfl).2.2

/-! ## Claim C8 -/

/-- Claim C8: `Update` never issues a create call — every call in its trace
is either the tag reconciliation against the existing group id (passing the
existing group's current tags and the legacy ignored-key set) or the ingress
reconciliation against the existing group id with the translated
permissions; and on success `Update` returns a status holding exactly the
existing id. -/
theorem claim8_update_no_create (m : defaultSecurityGroupManager) (env : Env)
    (resSG : SecurityGroup) (sdkSG : SecurityGroupInfo) :
    (∀ req, ProviderCall.createSecurityGroup req ∉
        (m.Update env resSG sdkSG).1) ∧
    (∀ c, c ∈ (m.Update env resSG sdkSG).1 →
       c = ProviderCall.reconcileTags sdkSG.SecurityGroupID
             (m.trackingProvider.ResourceTags resSG resSG.Spec.Tags)
             sdkSG.Tags m.trackingProvider.LegacyTagKeys ∨
       ∃ infos, buildIPPermissionInfos resSG.Spec.Ingress = Except.ok infos ∧
         c = ProviderCall.reconcileIngress sdkSG.SecurityGroupID infos) ∧
    (∀ st, (m.Update env resSG sdkSG).2 = Except.ok st →
       st = ⟨sdkSG.SecurityGroupID⟩) := by
  unfold defaultSecurityGroupManager.Update
    defaultSecurityGroupManager.updateSDKSecurityGroupGroupWithTags
  cases hb : buildIPPermissionInfos resSG.Spec.Ingress with
  | error e => simp
  | ok infos =>
      cases ht : env.reconcileTags sdkSG.SecurityGroupID
          (m.trackingProvider.ResourceTags resSG resSG.Spec.Tags) sdkSG.Tags
          m.trackingProvider.LegacyTagKeys with
      | some e =>
          simp only [ht]
          refine ⟨?_, ?_, ?_⟩
          · intro req hmem
            simp at hmem
          · intro c hc
            simp at hc
            exact Or.inl hc
          · intro st hst
            simp at hst
      | none =>
          cases hi : env.reconcileIngress sdkSG.SecurityGroupID infos with
          | some e =>
              simp only [ht, hi]
              refine ⟨?_, ?_, ?_⟩
              · intro req hmem
                simp at hmem
              · intro c hc
                simp at hc
                rcases hc with hc | hc
                · exact Or.inl hc
                · exact Or.inr ⟨infos, rfl, hc⟩
              · intro st hst
                simp at hst
          | none =>
              simp only [ht, hi]
              refine ⟨?_, ?_, ?_⟩
              · intro req hmem
                simp at hmem
              · intro c hc
                simp at hc
                rcases hc with hc | hc
                · exact Or.inl hc
                · exact Or.inr ⟨infos, rfl, hc⟩
              · intro st hst
                simp at hst
                rw [hst]

/-- Claim C8, witness: a concrete `Update` issues only the two reconcile
calls and returns the existing id. -/
theorem claim8_witness :
    ∀ st, ((NewDefaultSecurityGroupManager witnessTrackingProvider
        "vpc-1").Update witnessEnv ⟨⟨"sg-name", "sg-desc", [], []⟩⟩
        ⟨"sg-456", [("k", "v")]⟩).2 = Except.ok st → st = ⟨"sg-456"⟩ :=
  (claim8_update_no_create
      (NewDefaultSecurityGroupManager witnessTrackingProvider "vpc-1")
      witnessEnv ⟨⟨"sg-name", "sg-desc", [], []⟩⟩
      ⟨"sg-456", [("k", "v")]⟩).2.2

/-! ## Claim C9 -/

/-- Claim C9: the delete poll interval defaults to 2 seconds (order of
seconds) and the delete deadline to 2 minutes (order of minutes);
`NewDefaultSecurityGroupManager` installs exactly these defaults, and a
manager with non-default values for both is constructible (the struct's
fields are freely settable within the package). -/
theorem claim9_config_defaults_overridable :
    defaultWaitSGDeletionPollInterval = 2 * timeSecond ∧
    defaultWaitSGDeletionTimeout = 2 * timeMinute ∧
    timeSecond ≤ defaultWaitSGDeletionPollInterval ∧
    defaultWaitSGDeletionPollInterval < timeMinute ∧
    timeMinute ≤ defaultWaitSGDeletionTimeout ∧
    defaultWaitSGDeletionTimeout < 60 * timeMinute ∧
    (∀ tp vpcID,
       (NewDefaultSecurityGroupManager tp vpcID).waitSGDeletionPollInterval =
           defaultWaitSGDeletionPollInterval ∧
       (NewDefaultSecurityGroupManager tp vpcID).waitSGDeletionTimeout =
           defaultWaitSGDeletionTimeout) ∧
    (∃ m : defaultSecurityGroupManager,
       m.waitSGDeletionPollInterval ≠ defaultWaitSGDeletionPollInterval ∧
       m.waitSGDeletionTimeout ≠ defaultWaitSGDeletionTimeout) :=
  ⟨rfl, rfl, by decide, by decide, by decide, by decide,
   fun _ _ => ⟨rfl, rfl⟩,
   ⟨⟨witnessTrackingProvider, "vpc-1", timeSecond, timeMinute⟩,
    by decide, by decide⟩⟩

/-! ## Claim C10 -/

/-- Claim C10: translating an empty ingress-rule list succeeds with an empty
permission list, and `Create` and `Update` on a spec with zero ingress rules
proceed to the provider calls — `Create` issues the create call first and,
once the create call succeeds, invokes `ReconcileIngress` with the empty
permission list on the new id; `Update`, once tag reconciliation succeeds,
invokes `ReconcileIngress` with the empty permission list on the existing
id. -/
theorem claim10_empty_ingress (m : defaultSecurityGroupManager) (env : Env)
    (resSG : SecurityGroup) (sdkSG : SecurityGroupInfo)
    (h : resSG.Spec.Ingress = []) :
    buildIPPermissionInfos resSG.Spec.Ingress = Except.ok [] ∧
    (m.Create env resSG).1.head? =
      some (ProviderCall.createSecurityGroup (createSecurityGroupReq m resSG)) ∧
    (∀ sgID, env.createSecurityGroup (createSecurityGroupReq m resSG) =
        Except.ok sgID →
      ProviderCall.reconcileIngress sgID [] ∈ (m.Create env resSG).1) ∧
    ((m.updateSDKSecurityGroupGroupWithTags env resSG sdkSG).2 = none →
      ProviderCall.reconcileIngress sdkSG.SecurityGroupID [] ∈
        (m.Update env resSG sdkSG).1) := by
  have hb : buildIPPermissionInfos resSG.Spec.Ingress = Except.ok [] := by
    rw [h]
    rfl
  refine ⟨hb, ?_, ?_, ?_⟩
  · cases hc : env.createSecurityGroup (createSecurityGroupReq m resSG) with
    | error e => simp [defaultSecurityGroupManager.Create, hb, hc]
    | ok sgID =>
        cases hi : env.reconcileIngress sgID [] with
        | some e => simp [defaultSecurityGroupManager.Create, hb, hc, hi]
        | none => simp [defaultSecurityGroupManager.Create, hb, hc, hi]
  · intro sgID hc
    cases hi : env.reconcileIngress sgID [] with
    | some e => simp [defaultSecurityGroupManager.Create, hb, hc, hi]
    | none => simp [defaultSecurityGroupManager.Create, hb, hc, hi]
  · intro ht
    cases hi : env.reconcileIngress sdkSG.SecurityGroupID [] with
    | some e => simp [defaultSecurityGroupManager.Update, hb, ht, hi]
    | none => simp [defaultSecurityGroupManager.Update, hb, ht, hi]

/-- Claim C10, witness: concrete instance with the all-succeeding
environment and a spec with no ingress rules. -/
theorem claim10_witness :
    ProviderCall.reconcileIngress "sg-123" [] ∈
      ((NewDefaultSecurityGroupManager witnessTrackingProvider
          "vpc-1").Create witnessEnv ⟨⟨"sg-name", "sg-desc", [], []⟩⟩).1 :=
  (claim10_empty_ingress
      (NewDefaultSecurityGroupManager witnessTrackingProvider "vpc-1")
      witnessEnv ⟨⟨"sg-name", "sg-desc", [], []⟩⟩ ⟨"sg-456", []⟩
      rfl).2.2.1 "sg-123" rfl

end Ec2
